import Mathlib

/-!
Verification of the `@niicojs/soql` escaping library.

The development shallowly embeds the library's two variant implementations
(the symbol-marker variant in `helpers.ts`/`escape.ts`, and the older
field-marker variant) as Lean functions over an inductive value type, and
proves the specification's claims about them.

Strings are modelled as Lean `String`s (lists of characters); the JavaScript
`String.prototype.replace` calls with single-character global patterns are
modelled character by character, preserving the left-to-right, no-rescan
semantics of `replace`.
-/

/-- The backslash character. -/
def bs : Char := '\\'

/-- The single-quote character. -/
def squote : Char := '\x27'

/-- The NUL character. -/
def nulc : Char := '\x00'

/--
`String.prototype.replace(/c/g, r)` for a single character `c` and a
replacement string `r` (given as a character list): every occurrence of `c`
is replaced by `r`, scanning left to right, and replacement text is never
rescanned.
-/
def replaceChar (c : Char) (r : List Char) : List Char → List Char
  | [] => []
  | x :: xs => if x = c then r ++ replaceChar c r xs else x :: replaceChar c r xs

/--
`escapeString` from `escape.ts`, on character lists: the six `.replace`
calls applied in source order (backslash first, then single quote, newline,
carriage return, tab, NUL).
-/
def escapeStringL (cs : List Char) : List Char :=
  replaceChar nulc [bs, '0']
    (replaceChar '\t' [bs, 't']
      (replaceChar '\r' [bs, 'r']
        (replaceChar '\n' [bs, 'n']
          (replaceChar squote [bs, squote]
            (replaceChar bs [bs, bs] cs)))))

/-- `escapeString` from `escape.ts`. -/
def escapeString (s : String) : String := String.mk (escapeStringL s.data)

/--
`escapeLike` from `escape.ts`, on character lists: the eight `.replace`
calls in source order — the plain-string substitutions with the two LIKE
wildcard substitutions (`%`, `_`) inserted after the quote substitution and
before the newline substitution.
-/
def escapeLikeL (cs : List Char) : List Char :=
  replaceChar nulc [bs, '0']
    (replaceChar '\t' [bs, 't']
      (replaceChar '\r' [bs, 'r']
        (replaceChar '\n' [bs, 'n']
          (replaceChar '_' [bs, '_']
            (replaceChar '%' [bs, '%']
              (replaceChar squote [bs, squote]
                (replaceChar bs [bs, bs] cs)))))))

/-- `escapeLike` from `escape.ts`. -/
def escapeLike (s : String) : String := String.mk (escapeLikeL s.data)

/-- Concatenation of the images of a character-to-string map. -/
def concatMap (f : Char → List Char) : List Char → List Char
  | [] => []
  | x :: xs => f x ++ concatMap f xs

/-- The per-character effect of the `escapeString` substitution pipeline. -/
def escChar (x : Char) : List Char :=
  if x = bs then [bs, bs]
  else if x = squote then [bs, squote]
  else if x = '\n' then [bs, 'n']
  else if x = '\r' then [bs, 'r']
  else if x = '\t' then [bs, 't']
  else if x = nulc then [bs, '0']
  else [x]

/-- The per-character effect of the `escapeLike` substitution pipeline. -/
def escLikeChar (x : Char) : List Char :=
  if x = bs then [bs, bs]
  else if x = squote then [bs, squote]
  else if x = '%' then [bs, '%']
  else if x = '_' then [bs, '_']
  else if x = '\n' then [bs, 'n']
  else if x = '\r' then [bs, 'r']
  else if x = '\t' then [bs, 't']
  else if x = nulc then [bs, '0']
  else [x]

/-- Is a character one of the six admissible escape-sequence letters? -/
def isAllowedEsc (y : Char) : Bool :=
  y = bs || y = squote || y = 'n' || y = 'r' || y = 't' || y = '0'

/--
Scans a character list and checks that every backslash is immediately
followed by one of the admissible escape letters (consuming that letter)
and that no single quote occurs outside such an escape sequence.
-/
def wellEscaped : List Char → Bool
  | [] => true
  | x :: xs =>
    if x = bs then
      match xs with
      | [] => false
      | y :: rest => isAllowedEsc y && wellEscaped rest
    else
      !(x = squote) && wellEscaped xs

theorem replaceChar_append (c : Char) (r : List Char) (xs ys : List Char) :
    replaceChar c r (xs ++ ys) = replaceChar c r xs ++ replaceChar c r ys := by
  induction xs with
  | nil => rfl
  | cons x xs ih =>
    by_cases h : x = c <;> simp [replaceChar, h, ih]

theorem escapeStringL_append (xs ys : List Char) :
    escapeStringL (xs ++ ys) = escapeStringL xs ++ escapeStringL ys := by
  simp [escapeStringL, replaceChar_append]

theorem escapeLikeL_append (xs ys : List Char) :
    escapeLikeL (xs ++ ys) = escapeLikeL xs ++ escapeLikeL ys := by
  simp [escapeLikeL, replaceChar_append]

theorem escapeStringL_single (x : Char) : escapeStringL [x] = escChar x := by
  by_cases h1 : x = bs
  · subst h1; rfl
  by_cases h2 : x = squote
  · subst h2; rfl
  by_cases h3 : x = '\n'
  · subst h3; rfl
  by_cases h4 : x = '\r'
  · subst h4; rfl
  by_cases h5 : x = '\t'
  · subst h5; rfl
  by_cases h6 : x = nulc
  · subst h6; rfl
  simp [escapeStringL, escChar, replaceChar, h1, h2, h3, h4, h5, h6]

theorem escapeLikeL_single (x : Char) : escapeLikeL [x] = escLikeChar x := by
  by_cases h1 : x = bs
  · subst h1; rfl
  by_cases h2 : x = squote
  · subst h2; rfl
  by_cases hp : x = '%'
  · subst hp; rfl
  by_cases hu : x = '_'
  · subst hu; rfl
  by_cases h3 : x = '\n'
  · subst h3; rfl
  by_cases h4 : x = '\r'
  · subst h4; rfl
  by_cases h5 : x = '\t'
  · subst h5; rfl
  by_cases h6 : x = nulc
  · subst h6; rfl
  simp [escapeLikeL, escLikeChar, replaceChar, h1, h2, hp, hu, h3, h4, h5, h6]

theorem escapeStringL_eq_concatMap (cs : List Char) :
    escapeStringL cs = concatMap escChar cs := by
  induction cs with
  | nil => rfl
  | cons x xs ih =>
    have : x :: xs = [x] ++ xs := rfl
    rw [this, escapeStringL_append, escapeStringL_single, ih]
    rfl

theorem escapeLikeL_eq_concatMap (cs : List Char) :
    escapeLikeL cs = concatMap escLikeChar cs := by
  induction cs with
  | nil => rfl
  | cons x xs ih =>
    have : x :: xs = [x] ++ xs := rfl
    rw [this, escapeLikeL_append, escapeLikeL_single, ih]
    rfl

theorem wellEscaped_escChar (x : Char) (t : List Char) :
    wellEscaped (escChar x ++ t) = wellEscaped t := by
  by_cases h1 : x = bs
  · subst h1; simp [escChar, wellEscaped, isAllowedEsc]
  by_cases h2 : x = squote
  · subst h2; simp [escChar, wellEscaped, isAllowedEsc, bs, squote]
  by_cases h3 : x = '\n'
  · subst h3; simp [escChar, wellEscaped, isAllowedEsc, bs, squote]
  by_cases h4 : x = '\r'
  · subst h4; simp [escChar, wellEscaped, isAllowedEsc, bs, squote]
  by_cases h5 : x = '\t'
  · subst h5; simp [escChar, wellEscaped, isAllowedEsc, bs, squote]
  by_cases h6 : x = nulc
  · subst h6; simp [escChar, wellEscaped, isAllowedEsc, bs, squote]
  have hx : escChar x = [x] := by simp [escChar, h1, h2, h3, h4, h5, h6]
  rw [hx, List.singleton_append, wellEscaped.eq_def]
  simp [h1, h2]

theorem wellEscaped_escapeStringL (cs : List Char) :
    wellEscaped (escapeStringL cs) = true := by
  rw [escapeStringL_eq_concatMap]
  induction cs with
  | nil => rfl
  | cons x xs ih =>
    simpa [concatMap, wellEscaped_escChar] using ih

/-!
## Dates

A JavaScript `Date` holds a time value: either NaN (an invalid date) or an
integer count of milliseconds since the Unix epoch. We model it as
`Option Int` (`none` = invalid). The UTC calendar-field getters and
`toISOString` are modelled from their ECMAScript definitions (the civil
calendar computation uses the standard era-based algorithm).
-/

/-- A JavaScript `Date`: `none` is an invalid date (NaN time value). -/
abbrev JsDate := Option Int

/-- `String.prototype.padStart(n, c)`. -/
def padStart (n : Nat) (c : Char) (s : String) : String :=
  String.mk (List.replicate (n - s.length) c) ++ s

/-- Day number (floor of the time value over 86 400 000 ms). -/
def dayNumber (t : Int) : Int := Int.fdiv t 86400000

/-- Milliseconds elapsed within the UTC day (always in `[0, 86400000)`). -/
def msOfDay (t : Int) : Nat := (Int.fmod t 86400000).toNat

/--
Proleptic-Gregorian civil date `(year, month, day)` of a day number
(days since 1970-01-01), month 1-based; the standard era-based algorithm.
-/
def civilFromDays (z : Int) : Int × Nat × Nat :=
  let zd : Int := z + 719468
  let era : Int := Int.fdiv zd 146097
  let doe : Nat := (Int.fmod zd 146097).toNat
  let yoe : Nat := (doe - doe / 1460 + doe / 36524 - doe / 146096) / 365
  let y : Int := (yoe : Int) + era * 400
  let doy : Nat := doe - (365 * yoe + yoe / 4 - yoe / 100)
  let mp : Nat := (5 * doy + 2) / 153
  let d : Nat := doy - (153 * mp + 2) / 5 + 1
  let m : Nat := if mp < 10 then mp + 3 else mp - 9
  (if m ≤ 2 then y + 1 else y, m, d)

/-- `Date.prototype.getUTCFullYear` on a valid time value. -/
def utcYear (t : Int) : Int := (civilFromDays (dayNumber t)).1

/-- `Date.prototype.getUTCMonth() + 1` (1-based month) on a valid time value. -/
def utcMonth (t : Int) : Nat := (civilFromDays (dayNumber t)).2.1

/-- `Date.prototype.getUTCDate` on a valid time value. -/
def utcDay (t : Int) : Nat := (civilFromDays (dayNumber t)).2.2

/-- `Date.prototype.getUTCHours` on a valid time value. -/
def utcHour (t : Int) : Nat := msOfDay t / 3600000

/-- `Date.prototype.getUTCMinutes` on a valid time value. -/
def utcMinute (t : Int) : Nat := msOfDay t / 60000 % 60

/-- `Date.prototype.getUTCSeconds` on a valid time value. -/
def utcSecond (t : Int) : Nat := msOfDay t / 1000 % 60

/-- `Date.prototype.getUTCMilliseconds` on a valid time value. -/
def millisOf (t : Int) : Nat := msOfDay t % 1000

/--
`formatDate` from `escape.ts`: `${year}-${month}-${day}` with the year
unpadded and month/day zero-padded to two digits via `padStart`. On an
invalid date every UTC getter is NaN and `String(NaN)` is `"NaN"`.
-/
def formatDate : JsDate → String
  | none => "NaN-NaN-NaN"
  | some t =>
    toString (utcYear t) ++ "-" ++ padStart 2 '0' (toString (utcMonth t)) ++ "-" ++
      padStart 2 '0' (toString (utcDay t))

/--
The year field of `Date.prototype.toISOString` (ECMAScript): four
zero-padded digits for years 0–9999, otherwise an explicit sign and six
zero-padded digits (expanded years).
-/
def isoYearStr (y : Int) : String :=
  if 0 ≤ y ∧ y ≤ 9999 then padStart 4 '0' (toString y)
  else if y < 0 then "-" ++ padStart 6 '0' (toString (-y))
  else "+" ++ padStart 6 '0' (toString y)

/-- The three zero-padded millisecond digits of `toISOString`. -/
def millis3 (t : Int) : String :=
  String.mk [Nat.digitChar (millisOf t / 100), Nat.digitChar (millisOf t / 10 % 10),
    Nat.digitChar (millisOf t % 10)]

/--
`Date.prototype.toISOString` on a valid time value, modelled from its
ECMAScript definition: UTC fields, zero-padded, literal separators, and
three millisecond digits before the `Z` suffix.
-/
def toISOString (t : Int) : String :=
  isoYearStr (utcYear t) ++ "-" ++ padStart 2 '0' (toString (utcMonth t)) ++ "-" ++
    padStart 2 '0' (toString (utcDay t)) ++ "T" ++ padStart 2 '0' (toString (utcHour t)) ++ ":" ++
    padStart 2 '0' (toString (utcMinute t)) ++ ":" ++ padStart 2 '0' (toString (utcSecond t)) ++
    "." ++ millis3 t ++ "Z"

/--
`.replace(/\.\d{3}Z$/, 'Z')` on character lists: if the last five
characters are a dot, three decimal digits and `Z`, they are replaced by a
single `Z`; otherwise the list is unchanged.
-/
def stripMillisAux (cs : List Char) : List Char :=
  match cs.reverse with
  | z :: c3 :: c2 :: c1 :: dot :: rest =>
    if z = 'Z' && dot = '.' && c1.isDigit && c2.isDigit && c3.isDigit then
      ('Z' :: rest).reverse
    else cs
  | _ => cs

/-- `.replace(/\.\d{3}Z$/, 'Z')` on strings. -/
def stripMillis (s : String) : String := String.mk (stripMillisAux s.data)

/--
`formatDateTime` from `escape.ts` on a valid time value:
`date.toISOString().replace(/\.\d{3}Z$/, 'Z')`.
-/
def formatDateTime (t : Int) : String := stripMillis (toISOString t)

/--
The spec's description of the datetime rendering:
`YYYY-MM-DDThh:mm:ssZ`, UTC calendar fields, zero-padded, sub-second
precision truncated, literal `T` and `Z`.
-/
def specDateTimeRender (t : Int) : String :=
  padStart 4 '0' (toString (utcYear t)) ++ "-" ++ padStart 2 '0' (toString (utcMonth t)) ++ "-" ++
    padStart 2 '0' (toString (utcDay t)) ++ "T" ++ padStart 2 '0' (toString (utcHour t)) ++ ":" ++
    padStart 2 '0' (toString (utcMinute t)) ++ ":" ++ padStart 2 '0' (toString (utcSecond t)) ++
    "Z"

theorem digitChar_isDigit (n : Nat) (h : n < 10) : (Nat.digitChar n).isDigit = true := by
  interval_cases n <;> decide

theorem stripMillisAux_append (p : List Char) (a b c : Char)
    (ha : a.isDigit = true) (hb : b.isDigit = true) (hc : c.isDigit = true) :
    stripMillisAux (p ++ ['.', a, b, c, 'Z']) = p ++ ['Z'] := by
  unfold stripMillisAux
  have hrev : (p ++ ['.', a, b, c, 'Z']).reverse = 'Z' :: c :: b :: a :: '.' :: p.reverse := by
    simp
  rw [hrev]
  simp [ha, hb, hc]

theorem stripMillis_spec (x : String) (a b c : Char)
    (ha : a.isDigit = true) (hb : b.isDigit = true) (hc : c.isDigit = true) :
    stripMillis (x ++ "." ++ String.mk [a, b, c] ++ "Z") = x ++ "Z" := by
  have hdot : ("." : String).data = ['.'] := rfl
  have hz : ("Z" : String).data = ['Z'] := rfl
  apply String.ext
  simp [stripMillis, String.data_append, hdot, hz, stripMillisAux_append x.data a b c ha hb hc]

theorem millisOf_lt (t : Int) : millisOf t < 1000 := by
  exact Nat.mod_lt _ (by norm_num)

theorem formatDateTime_eq_spec (t : Int) (h0 : 0 ≤ utcYear t) (h9 : utcYear t ≤ 9999) :
    formatDateTime t = specDateTimeRender t := by
  have hy : isoYearStr (utcYear t) = padStart 4 '0' (toString (utcYear t)) := by
    unfold isoYearStr
    rw [if_pos (And.intro h0 h9)]
  have hlt : millisOf t < 1000 := millisOf_lt t
  have hd1 : millisOf t / 100 < 10 := by omega
  have hd2 : millisOf t / 10 % 10 < 10 := by omega
  have hd3 : millisOf t % 10 < 10 := by omega
  unfold formatDateTime toISOString millis3
  rw [stripMillis_spec _ _ _ _ (digitChar_isDigit _ hd1) (digitChar_isDigit _ hd2)
    (digitChar_isDigit _ hd3)]
  unfold specDateTimeRender
  rw [hy]

/-!
## Values

`SoqlValue` is the library's value taxonomy (`types.ts`): null/undefined,
plain strings, numbers, booleans, `Date`s, the three tagged wrappers
(raw, LIKE pattern, date-only) and nested arrays. The tagged wrappers are
constructors, mirroring classification by the marker-based type guards.

A JavaScript number is modelled by its classification (NaN, the two
infinities, or finite) with a finite number carried as its canonical
`String(n)` decimal rendering, which is how the code consumes it.
-/

/-- A JavaScript number, carrying the canonical `String(n)` form if finite. -/
inductive JsNumber where
  | nan
  | posInf
  | negInf
  | finite (repr : String)

/-- `Number.isFinite`. -/
def JsNumber.isFiniteNum : JsNumber → Bool
  | JsNumber.finite _ => true
  | _ => false

/-- `String(n)` for a JavaScript number. -/
def JsNumber.toStr : JsNumber → String
  | JsNumber.nan => "NaN"
  | JsNumber.posInf => "Infinity"
  | JsNumber.negInf => "-Infinity"
  | JsNumber.finite r => r

/-- The value taxonomy of `types.ts`. -/
inductive SoqlValue where
  | vnull
  | vundef
  | vstr (s : String)
  | vnum (n : JsNumber)
  | vbool (b : Bool)
  | vdate (d : JsDate)
  | vraw (s : String)
  | vlike (s : String)
  | vdateOnly (d : JsDate)
  | varr (xs : List SoqlValue)

/-- `raw` from `helpers.ts`: wraps a string as a raw (unescaped) value. -/
def raw (value : String) : SoqlValue := SoqlValue.vraw value

/-- `like` from `helpers.ts`: wraps a string as a LIKE-pattern value. -/
def like (value : String) : SoqlValue := SoqlValue.vlike value

/--
`literal` from `helpers.ts`: wraps a date-literal keyword as a raw value.
The `DateLiteral` keyword restriction exists only at the type level; at
runtime any string flows through unchecked.
-/
def literal (value : String) : SoqlValue := raw value

/-- The error message thrown by `escapeArray` on an empty array. -/
def emptyArrayMsg : String :=
  "Empty arrays are not allowed in SOQL IN clauses. Use a conditional to skip the query or provide at least one value."

mutual

/--
`escapeValue` from `escape.ts` (the symbol-marker variant): dispatches on
the value kind in source order; errors are modelled with `Except`.
-/
def escapeValue : SoqlValue → Bool → Except String String
  | SoqlValue.vnull, _ => Except.ok "null"
  | SoqlValue.vundef, _ => Except.ok "null"
  | SoqlValue.vraw s, _ => Except.ok s
  | SoqlValue.vlike s, wrapStrings =>
    let escaped := escapeLike s
    Except.ok (if wrapStrings then String.mk [squote] ++ escaped ++ String.mk [squote] else escaped)
  | SoqlValue.vdateOnly d, _ => Except.ok (formatDate d)
  | SoqlValue.varr xs, _ => escapeArray xs
  | SoqlValue.vbool b, _ => Except.ok (if b then "true" else "false")
  | SoqlValue.vnum n, _ =>
    if !n.isFiniteNum then Except.error ("Invalid SOQL number value: " ++ n.toStr)
    else Except.ok n.toStr
  | SoqlValue.vdate none, _ => Except.error "Invalid Date object"
  | SoqlValue.vdate (some t), _ => Except.ok (formatDateTime t)
  | SoqlValue.vstr s, wrapStrings =>
    let escaped := escapeString s
    Except.ok (if wrapStrings then String.mk [squote] ++ escaped ++ String.mk [squote] else escaped)

/--
`escapeArray` from `escape.ts` (the symbol-marker variant): rejects the
empty array, otherwise escapes every element with `wrapStrings = true`,
joins with `", "` and parenthesizes.
-/
def escapeArray : List SoqlValue → Except String String
  | [] => Except.error emptyArrayMsg
  | x :: xs => do
    let es ← escapeList (x :: xs)
    Except.ok ("(" ++ String.intercalate ", " es ++ ")")

/-- `arr.map((item) => escapeValue(item, true))`, with errors propagated. -/
def escapeList : List SoqlValue → Except String (List String)
  | [] => Except.ok []
  | x :: xs => do
    let e ← escapeValue x true
    let es ← escapeList xs
    Except.ok (e :: es)

end

namespace Variant2

mutual

/--
`escapeValue` from the field-marker variant: identical dispatch except
that there is no date-only branch — a date-only wrapper is an object that
matches no branch and falls through to the unsupported-type error
(`typeof` of a plain object is `"object"`).
-/
def escapeValue : SoqlValue → Bool → Except String String
  | SoqlValue.vnull, _ => Except.ok "null"
  | SoqlValue.vundef, _ => Except.ok "null"
  | SoqlValue.vraw s, _ => Except.ok s
  | SoqlValue.vlike s, wrapStrings =>
    let escaped := escapeLike s
    Except.ok (if wrapStrings then String.mk [squote] ++ escaped ++ String.mk [squote] else escaped)
  | SoqlValue.vdateOnly _, _ => Except.error ("Unsupported SOQL value type: " ++ "object")
  | SoqlValue.varr xs, _ => escapeArray xs
  | SoqlValue.vbool b, _ => Except.ok (if b then "true" else "false")
  | SoqlValue.vnum n, _ =>
    if !n.isFiniteNum then Except.error ("Invalid SOQL number value: " ++ n.toStr)
    else Except.ok n.toStr
  | SoqlValue.vdate none, _ => Except.error "Invalid Date object"
  | SoqlValue.vdate (some t), _ => Except.ok (formatDateTime t)
  | SoqlValue.vstr s, wrapStrings =>
    let escaped := escapeString s
    Except.ok (if wrapStrings then String.mk [squote] ++ escaped ++ String.mk [squote] else escaped)

/--
`escapeArray` from the field-marker variant: an empty array yields the
`"(null)"` placeholder instead of an error.
-/
def escapeArray : List SoqlValue → Except String String
  | [] => Except.ok "(null)"
  | x :: xs => do
    let es ← escapeList (x :: xs)
    Except.ok ("(" ++ String.intercalate ", " es ++ ")")

/-- `arr.map((item) => escapeValue(item, true))` in the field-marker variant. -/
def escapeList : List SoqlValue → Except String (List String)
  | [] => Except.ok []
  | x :: xs => do
    let e ← escapeValue x true
    let es ← escapeList xs
    Except.ok (e :: es)

end

end Variant2

/--
The `soql` tagged-template composer from `soql.ts`: walks the literal
segments, appending each segment and then the escaped value in the same
slot, with escape failures aborting the whole composition.
-/
def soql : List String → List SoqlValue → Except String String
  | [], _ => Except.ok ""
  | s :: segs, [] => do
    let r ← soql segs []
    Except.ok (s ++ r)
  | s :: segs, v :: vals => do
    let e ← escapeValue v true
    let r ← soql segs vals
    Except.ok (s ++ e ++ r)

/-- Interleaves `n+1` literal segments with `n` already-escaped values. -/
def interleave : List String → List String → String
  | [], _ => ""
  | s :: segs, [] => s ++ interleave segs []
  | s :: segs, e :: es => s ++ e ++ interleave segs es

theorem okBind {α β : Type} (a : α) (g : α → Except String β) :
    (Except.ok a >>= g) = g a := rfl

theorem errBind {α β : Type} (e : String) (g : α → Except String β) :
    ((Except.error e : Except String α) >>= g) = Except.error e := rfl

theorem mapOk {α β : Type} (a : α) (g : α → β) :
    Except.map g (Except.ok a : Except String α) = Except.ok (g a) := rfl

theorem mapErr {α β : Type} (e : String) (g : α → β) :
    Except.map g (Except.error e : Except String α) = Except.error e := rfl

theorem escapeList_forall2 : ∀ (xs : List SoqlValue) (es : List String),
    List.Forall₂ (fun v e => escapeValue v true = Except.ok e) xs es →
    escapeList xs = Except.ok es := by
  intro xs es h
  induction h with
  | nil => simp [escapeList]
  | cons hv _ ih => simp [escapeList, hv, ih, okBind]

theorem soql_eq_interleave : ∀ (vals : List SoqlValue) (segs : List String),
    segs.length = vals.length + 1 →
    soql segs vals = (escapeList vals).map (fun es => interleave segs es)
  | [], segs, h => by
    match segs, h with
    | [s], _ =>
      simp [soql, interleave, escapeList, okBind, mapOk]
  | v :: vs, segs, h => by
    match segs with
    | s :: segs' =>
      have h' : segs'.length = vs.length + 1 := by simpa using h
      have ih := soql_eq_interleave vs segs' h'
      cases he : escapeValue v true with
      | error msg => simp [soql, escapeList, he, errBind, mapErr]
      | ok e =>
        cases hes : escapeList vs with
        | error msg =>
          simp [soql, escapeList, he, hes, okBind, errBind, mapOk, mapErr, ih]
        | ok es =>
          simp [soql, escapeList, he, hes, okBind, errBind, mapOk, mapErr, ih, interleave]

theorem escapeArray_nonempty (xs : List SoqlValue) (hne : xs ≠ []) :
    escapeArray xs =
      (escapeList xs).map (fun es => "(" ++ String.intercalate ", " es ++ ")") := by
  cases xs with
  | nil => exact absurd rfl hne
  | cons x ys =>
    cases hes : escapeList (x :: ys) with
    | error msg => simp [escapeArray, hes, errBind, mapErr]
    | ok es => simp [escapeArray, hes, okBind, mapOk]

mutual

/--
Inputs on which the two variants are compared: no empty array at any
nesting depth and no date-only wrapper.
-/
def cleanVal : SoqlValue → Bool
  | SoqlValue.vdateOnly _ => false
  | SoqlValue.varr xs => !xs.isEmpty && cleanList xs
  | _ => true

/-- `cleanVal` on every element of a list. -/
def cleanList : List SoqlValue → Bool
  | [] => true
  | x :: xs => cleanVal x && cleanList xs

end

mutual

theorem escValEqAux : ∀ (v : SoqlValue) (w : Bool), cleanVal v = true →
    escapeValue v w = Variant2.escapeValue v w
  | SoqlValue.vnull, w, _ => by simp [escapeValue, Variant2.escapeValue]
  | SoqlValue.vundef, w, _ => by simp [escapeValue, Variant2.escapeValue]
  | SoqlValue.vstr s, w, _ => by simp [escapeValue, Variant2.escapeValue]
  | SoqlValue.vnum n, w, _ => by simp [escapeValue, Variant2.escapeValue]
  | SoqlValue.vbool b, w, _ => by simp [escapeValue, Variant2.escapeValue]
  | SoqlValue.vdate none, w, _ => by simp [escapeValue, Variant2.escapeValue]
  | SoqlValue.vdate (some t), w, _ => by simp [escapeValue, Variant2.escapeValue]
  | SoqlValue.vraw s, w, _ => by simp [escapeValue, Variant2.escapeValue]
  | SoqlValue.vlike s, w, _ => by simp [escapeValue, Variant2.escapeValue]
  | SoqlValue.vdateOnly d, w, h => by simp [cleanVal] at h
  | SoqlValue.varr xs, w, h => by
    have hl : cleanList xs = true := by
      have := h
      simp [cleanVal] at this
      exact this.2
    have hx := escListEqAux xs hl
    cases xs with
    | nil => simp [cleanVal] at h
    | cons x ys =>
      cases hes : escapeList (x :: ys) with
      | error msg =>
        simp [escapeValue, Variant2.escapeValue, escapeArray, Variant2.escapeArray,
          hes, hx.symm.trans hes, errBind]
      | ok es =>
        simp [escapeValue, Variant2.escapeValue, escapeArray, Variant2.escapeArray,
          hes, hx.symm.trans hes, okBind]

theorem escListEqAux : ∀ (xs : List SoqlValue), cleanList xs = true →
    escapeList xs = Variant2.escapeList xs
  | [], _ => by simp [escapeList, Variant2.escapeList]
  | x :: xs, h => by
    have h1 : cleanVal x = true := by
      have := h
      simp [cleanList] at this
      exact this.1
    have h2 : cleanList xs = true := by
      have := h
      simp [cleanList] at this
      exact this.2
    simp [escapeList, Variant2.escapeList, escValEqAux x true h1, escListEqAux xs h2]

end

/-!
## Wrapper markers and type guards

The guards inspect JavaScript objects at runtime, so for them we model a
fragment of JS objects: an association list from property keys to
property values, where a key is either a string key or one of the three
registered library symbols, and where we track of each property value
only whether it is the literal `true` (the guards test the marker
property with `=== true`). In the `SoqlValue` inductive the wrappers are
constructors; these guards are the runtime classification that those
constructors abstract.
-/

/-- A property key: a string key or one of the library's three symbols. -/
inductive JsKey where
  | str (name : String)
  | rawSym
  | likeSym
  | dateSym
deriving DecidableEq

/-- A JavaScript object: property list, `Bool` = "the value is literally `true`". -/
structure JsObj where
  props : List (JsKey × Bool)

/-- `SYM in val && val[SYM] === true`. -/
def hasMarker (o : JsObj) (k : JsKey) : Bool :=
  o.props.lookup k = some true

/-- `isRawValue` from `helpers.ts` (symbol variant). -/
def isRawValue (o : JsObj) : Bool := hasMarker o JsKey.rawSym

/-- `isLikeValue` from `helpers.ts` (symbol variant). -/
def isLikeValue (o : JsObj) : Bool := hasMarker o JsKey.likeSym

/-- `isDateValue` from `helpers.ts` (symbol variant). -/
def isDateValue (o : JsObj) : Bool := hasMarker o JsKey.dateSym

/-- Does an object have string keys only (any ordinary caller-built shape)? -/
def stringKeyed (o : JsObj) : Bool :=
  o.props.all fun p =>
    match p.1 with
    | JsKey.str _ => true
    | _ => false

namespace Variant2

/-- `isRawValue` from the field-marker variant: tests the `__raw` field. -/
def isRawValue (o : JsObj) : Bool := hasMarker o (JsKey.str "__raw")

/-- `isLikeValue` from the field-marker variant: tests the `__like` field. -/
def isLikeValue (o : JsObj) : Bool := hasMarker o (JsKey.str "__like")

end Variant2

theorem lookup_all_str (ps : List (JsKey × Bool))
    (h : (ps.all fun p =>
      match p.1 with
      | JsKey.str _ => true
      | _ => false) = true)
    (k : JsKey) (hk : ∀ n, k ≠ JsKey.str n) : ps.lookup k = none := by
  induction ps with
  | nil => rfl
  | cons p ps ih =>
    rw [List.all_cons, Bool.and_eq_true] at h
    obtain ⟨h1, h2⟩ := h
    match hp : p with
    | (JsKey.str n, v) =>
      have hne : (k == JsKey.str n) = false := beq_eq_false_iff_ne.mpr (hk n)
      rw [List.lookup_cons]
      simp [hne, ih h2]
    | (JsKey.rawSym, v) => simp at h1
    | (JsKey.likeSym, v) => simp at h1
    | (JsKey.dateSym, v) => simp at h1

theorem stringKeyed_no_symbol_marker (o : JsObj) (h : stringKeyed o = true)
    (k : JsKey) (hk : ∀ n, k ≠ JsKey.str n) : hasMarker o k = false := by
  unfold hasMarker
  rw [lookup_all_str o.props h k hk]
  rfl

/-!
## Claims
-/

/--
C1: `escapeString` applies the substitutions in source order (backslash
first, then single quote, newline, carriage return, tab, NUL), whose net
effect is the per-character map `escChar`; consequently the output
contains no unescaped backslash followed by a character other than
`\`, `'`, `n`, `r`, `t`, `0` and no unescaped single quote, and
`escapeString "O'Brien" = "O\'Brien"`.
-/
theorem escapeString_order_and_safety :
    (∀ s : String, escapeString s = String.mk (concatMap escChar s.data)) ∧
    (∀ s : String, wellEscaped (escapeString s).data = true) ∧
    escapeString "O\x27Brien" = "O\\\x27Brien" := by
  refine ⟨fun s => ?_, fun s => ?_, by decide⟩
  · unfold escapeString
    rw [escapeStringL_eq_concatMap]
  · exact wellEscaped_escapeStringL s.data

/--
C2: the composer `soql` produces
`segments[0] ++ escape(values[0]) ++ segments[1] ++ ... ++ segments[n]`,
leaving the literal segments unescaped and escaping every value slot with
`wrapStrings = true`; in particular composing
`["SELECT Id FROM Account WHERE Name = ", ""]` with the single string
value `"O'Brien"` yields
`"SELECT Id FROM Account WHERE Name = 'O\'Brien'"`.
-/
theorem soql_composes :
    (∀ (segs : List String) (vals : List SoqlValue) (es : List String),
      segs.length = vals.length + 1 →
      List.Forall₂ (fun v e => escapeValue v true = Except.ok e) vals es →
      soql segs vals = Except.ok (interleave segs es)) ∧
    soql ["SELECT Id FROM Account WHERE Name = ", ""] [SoqlValue.vstr "O\x27Brien"] =
      Except.ok "SELECT Id FROM Account WHERE Name = \x27O\\\x27Brien\x27" := by
  constructor
  · intro segs vals es hlen hall
    rw [soql_eq_interleave vals segs hlen, escapeList_forall2 vals es hall, mapOk]
  · simp [soql, escapeValue, okBind]
    rfl

/--
C2 witness: the general part of `soql_composes` applied to the concrete
template `["A", "B"]` with the single boolean value `true`.
-/
theorem soql_composes_witness :
    soql ["A", "B"] [SoqlValue.vbool true] = Except.ok (interleave ["A", "B"] ["true"]) :=
  soql_composes.1 ["A", "B"] [SoqlValue.vbool true] ["true"] (by decide)
    (List.Forall₂.cons (by simp [escapeValue]) List.Forall₂.nil)

/--
C3: `escapeLike` applies the plain string substitutions plus the LIKE
wildcard substitutions (`%`, `_`, inserted after the backslash and quote
substitutions and before the newline, carriage-return, tab and NUL
substitutions), whose net effect is the per-character map `escLikeChar`;
in particular `escapeLike "100%" = "100\%"`,
`escapeLike "test_value" = "test\_value"` and
`escapeLike "50%_test's" = "50\%\_test\'s"`.
-/
theorem escapeLike_order_and_examples :
    (∀ s : String, escapeLike s = String.mk (concatMap escLikeChar s.data)) ∧
    escapeLike "100%" = "100\\%" ∧
    escapeLike "test_value" = "test\\_value" ∧
    escapeLike "50%_test\x27s" = "50\\%\\_test\\\x27s" := by
  refine ⟨fun s => ?_, by decide, by decide, by decide⟩
  unfold escapeLike
  rw [escapeLikeL_eq_concatMap]

/--
C4: for a non-empty array, `escapeArray` escapes each element with
`wrapStrings = true` (independently of the outer flag, which
`escapeValue` does not even pass down), joins the escaped elements with
`", "` and parenthesizes, so that
`escapeArray ["a", "b", "c"] = "('a', 'b', 'c')"`; on the empty array it
fails with the error naming the violated non-emptiness precondition.
-/
theorem escapeArray_spec :
    (∀ (xs : List SoqlValue) (es : List String), xs ≠ [] →
      List.Forall₂ (fun v e => escapeValue v true = Except.ok e) xs es →
      escapeArray xs = Except.ok ("(" ++ String.intercalate ", " es ++ ")")) ∧
    (∀ (xs : List SoqlValue) (w : Bool), escapeValue (SoqlValue.varr xs) w = escapeArray xs) ∧
    escapeArray [SoqlValue.vstr "a", SoqlValue.vstr "b", SoqlValue.vstr "c"] =
      Except.ok "(\x27a\x27, \x27b\x27, \x27c\x27)" ∧
    escapeArray [] = Except.error emptyArrayMsg := by
  refine ⟨fun xs es hne hall => ?_, fun xs w => by simp [escapeValue], ?_, by simp [escapeArray]⟩
  · rw [escapeArray_nonempty xs hne, escapeList_forall2 xs es hall, mapOk]
  · simp [escapeArray, escapeList, escapeValue, okBind]
    rfl

/--
C4 witness: the general part of `escapeArray_spec` applied to the
concrete one-element array `[vbool false]`.
-/
theorem escapeArray_spec_witness :
    escapeArray [SoqlValue.vbool false] = Except.ok ("(" ++ String.intercalate ", " ["false"] ++ ")") :=
  escapeArray_spec.1 [SoqlValue.vbool false] ["false"] (List.cons_ne_nil _ _)
    (List.Forall₂.cons (by simp [escapeValue]) List.Forall₂.nil)

/--
C5: `escapeValue` on a number fails with an error message naming the
offending value when the number is not finite, and otherwise returns the
canonical `String(n)` decimal form unquoted;
`escapeValue 42 = "42"`, `escapeValue (-123) = "-123"`,
`escapeValue 3.14159 = "3.14159"`.
-/
theorem escapeValue_number_spec :
    (∀ (n : JsNumber) (w : Bool), n.isFiniteNum = false →
      escapeValue (SoqlValue.vnum n) w =
        Except.error ("Invalid SOQL number value: " ++ n.toStr)) ∧
    (∀ (r : String) (w : Bool),
      escapeValue (SoqlValue.vnum (JsNumber.finite r)) w = Except.ok r) ∧
    escapeValue (SoqlValue.vnum (JsNumber.finite "42")) true = Except.ok "42" ∧
    escapeValue (SoqlValue.vnum (JsNumber.finite "-123")) true = Except.ok "-123" ∧
    escapeValue (SoqlValue.vnum (JsNumber.finite "3.14159")) true = Except.ok "3.14159" := by
  refine ⟨fun n w h => ?_, fun r w => ?_, ?_, ?_, ?_⟩ <;>
    simp [escapeValue, JsNumber.isFiniteNum, JsNumber.toStr]
  cases n with
  | nan => simp [JsNumber.toStr]
  | posInf => simp [JsNumber.toStr]
  | negInf => simp [JsNumber.toStr]
  | finite r => simp [JsNumber.isFiniteNum] at h

/--
C5 witness: `escapeValue_number_spec` applied to `NaN` and `Infinity`.
-/
theorem escapeValue_number_spec_witness :
    escapeValue (SoqlValue.vnum JsNumber.nan) true =
      Except.error ("Invalid SOQL number value: " ++ JsNumber.nan.toStr) ∧
    escapeValue (SoqlValue.vnum JsNumber.posInf) true =
      Except.error ("Invalid SOQL number value: " ++ JsNumber.posInf.toStr) :=
  ⟨escapeValue_number_spec.1 JsNumber.nan true rfl,
    escapeValue_number_spec.1 JsNumber.posInf true rfl⟩

/--
C6: `escapeValue` on `raw s` returns `s` unchanged for every string and
flag value, and composing `raw s` into a template inserts `s` verbatim.
-/
theorem raw_passthrough_spec :
    (∀ (s : String) (w : Bool), escapeValue (raw s) w = Except.ok s) ∧
    (∀ (pre post s : String), soql [pre, post] [raw s] = Except.ok (pre ++ s ++ post)) := by
  constructor
  · intro s w
    simp [raw, escapeValue]
  · intro pre post s
    simp [soql, raw, escapeValue, okBind]

/--
C10: the date-literal constructor performs no runtime validation: for
every string `s`, `literal s` is exactly `raw s`, never fails, and
`escapeValue` later emits the wrapped text verbatim and unquoted.
-/
theorem literal_is_raw :
    (∀ s : String, literal s = raw s) ∧
    (∀ (s : String) (w : Bool), escapeValue (literal s) w = Except.ok s) := by
  exact ⟨fun s => rfl, fun s w => by simp [literal, raw, escapeValue]⟩

/--
C9: the symbol-marker variant and the field-marker variant of
`escapeValue` agree on every input with no empty array at any nesting
depth and no date-only wrapper; on the empty array the first fails with
the empty-array error while the second returns the `"(null)"`
placeholder.
-/
theorem variants_agree :
    (∀ (v : SoqlValue) (w : Bool), cleanVal v = true →
      escapeValue v w = Variant2.escapeValue v w) ∧
    escapeValue (SoqlValue.varr []) true = Except.error emptyArrayMsg ∧
    Variant2.escapeValue (SoqlValue.varr []) true = Except.ok "(null)" := by
  refine ⟨escValEqAux, ?_, ?_⟩
  · simp [escapeValue, escapeArray]
  · simp [Variant2.escapeValue, Variant2.escapeArray]

/--
C9 witness: `variants_agree` applied to the concrete nested input
`[["x"], 7]`, which contains no empty array and no date-only wrapper.
-/
theorem variants_agree_witness :
    cleanVal (SoqlValue.varr [SoqlValue.varr [SoqlValue.vstr "x"],
      SoqlValue.vnum (JsNumber.finite "7")]) = true ∧
    escapeValue (SoqlValue.varr [SoqlValue.varr [SoqlValue.vstr "x"],
        SoqlValue.vnum (JsNumber.finite "7")]) true =
      Variant2.escapeValue (SoqlValue.varr [SoqlValue.varr [SoqlValue.vstr "x"],
        SoqlValue.vnum (JsNumber.finite "7")]) true :=
  ⟨by simp [cleanVal, cleanList],
    variants_agree.1 _ true (by simp [cleanVal, cleanList])⟩

/--
C7 counterexample: at the valid instant 10000-01-01T00:00:00Z
(time value 253402300800000, within the representable Date range),
`formatDateTime` renders the expanded-year form
`"+010000-01-01T00:00:00Z"`, not the claimed `YYYY-MM-DDThh:mm:ssZ`
rendering of the UTC fields.
-/
theorem formatDateTime_expanded_year_counterexample :
    formatDateTime 253402300800000 = "+010000-01-01T00:00:00Z" ∧
    specDateTimeRender 253402300800000 = "10000-01-01T00:00:00Z" ∧
    formatDateTime 253402300800000 ≠ specDateTimeRender 253402300800000 := by
  refine ⟨by decide, by decide, by decide⟩

/--
C7 (amended): for every valid instant whose UTC year lies in 0–9999,
`formatDateTime` renders `YYYY-MM-DDThh:mm:ssZ` — UTC calendar fields,
zero-padded, sub-second precision truncated, literal `T` and `Z` — and
in particular the instant 2024-03-15T14:30:45.123Z renders as
`"2024-03-15T14:30:45Z"`; instants with a UTC year outside 0–9999 use
the expanded six-digit signed year form instead.
-/
theorem formatDateTime_renders_utc_truncated :
    (∀ t : Int, 0 ≤ utcYear t → utcYear t ≤ 9999 →
      formatDateTime t = specDateTimeRender t) ∧
    formatDateTime 1710513045123 = "2024-03-15T14:30:45Z" := by
  exact ⟨formatDateTime_eq_spec, by decide⟩

/--
C7 witness: `formatDateTime_renders_utc_truncated` applied at the
instant 2024-03-15T14:30:45.123Z, whose UTC year 2024 is in range.
-/
theorem formatDateTime_renders_utc_truncated_witness :
    formatDateTime 1710513045123 = specDateTimeRender 1710513045123 :=
  formatDateTime_renders_utc_truncated.1 1710513045123 (by decide) (by decide)

/--
C8 counterexample: in the field-marker variant the marker is an ordinary
string property, so the string-keyed object
`{__raw: true, value: true}` — a shape any caller might pass without
using the library constructors — is classified as a raw wrapper: the
marker does collide with ordinary object shapes.
-/
theorem field_marker_collision_counterexample :
    stringKeyed ⟨[(JsKey.str "__raw", true), (JsKey.str "value", true)]⟩ = true ∧
    Variant2.isRawValue ⟨[(JsKey.str "__raw", true), (JsKey.str "value", true)]⟩ = true := by
  refine ⟨by decide, by decide⟩

/--
C8 (amended): the symbol-variant guards return false on every
string-keyed object (so the symbol markers cannot collide with ordinary
caller object shapes); a plain object possessing only a `value` field is
never mistaken for a wrapper by either variant; plain string values are
escaped as plain strings by `escapeValue`, never treated as wrappers;
but in the field-marker variant the marker is an ordinary `__raw` /
`__like` string field, so a caller object carrying that field set to
`true` is classified as a wrapper (see the counterexample).
-/
theorem guards_reject_unmarked :
    (∀ o : JsObj, stringKeyed o = true →
      isRawValue o = false ∧ isLikeValue o = false ∧ isDateValue o = false) ∧
    (∀ b : Bool, isRawValue ⟨[(JsKey.str "value", b)]⟩ = false ∧
      isLikeValue ⟨[(JsKey.str "value", b)]⟩ = false ∧
      isDateValue ⟨[(JsKey.str "value", b)]⟩ = false ∧
      Variant2.isRawValue ⟨[(JsKey.str "value", b)]⟩ = false ∧
      Variant2.isLikeValue ⟨[(JsKey.str "value", b)]⟩ = false) ∧
    (∀ (s : String) (w : Bool), escapeValue (SoqlValue.vstr s) w =
      Except.ok (if w then String.mk [squote] ++ escapeString s ++ String.mk [squote]
        else escapeString s)) := by
  refine ⟨fun o h => ?_, fun b => ?_, fun s w => by simp [escapeValue]⟩
  · exact ⟨stringKeyed_no_symbol_marker o h JsKey.rawSym (fun n h => JsKey.noConfusion h),
      stringKeyed_no_symbol_marker o h JsKey.likeSym (fun n h => JsKey.noConfusion h),
      stringKeyed_no_symbol_marker o h JsKey.dateSym (fun n h => JsKey.noConfusion h)⟩
  · cases b <;> exact ⟨by decide, by decide, by decide, by decide, by decide⟩

/--
C8 witness: `guards_reject_unmarked` applied to the concrete
string-keyed object `{value: true}`.
-/
theorem guards_reject_unmarked_witness :
    isRawValue ⟨[(JsKey.str "value", true)]⟩ = false ∧
    isLikeValue ⟨[(JsKey.str "value", true)]⟩ = false ∧
    isDateValue ⟨[(JsKey.str "value", true)]⟩ = false :=
  guards_reject_unmarked.1 ⟨[(JsKey.str "value", true)]⟩ (by decide)
